import Mathlib

/-!
Verification of the convert-json-util repository (src/src/index.ts).

The development shallowly embeds the TypeScript source into Lean:
JavaScript values become the inductive type JsonValue, JS numbers are
modelled as integers (no claim exercises non-integer arithmetic or NaN),
thrown JS exceptions become the error side of Except String, and the
fs/path persistence block of convertJson is passed in as an explicit
sink outcome, since the File Sink is an external collaborator.
Prototype-chain property lookups are not modelled: property access reads
own properties only.
-/

/-- JSON-like runtime values: records, sequences and scalars. -/
inductive JsonValue where
  | str (s : String)
  | num (n : Int)
  | bool (b : Bool)
  | null
  | arr (xs : List JsonValue)
  | obj (fields : List (String × JsonValue))
deriving Repr

/-- Splits a character list at every occurrence of the separator,
accumulator holds the current (reversed) segment. -/
def splitOnCharAux (c : Char) : List Char → List Char → List String
  | [], acc => [String.mk acc.reverse]
  | x :: xs, acc =>
      if x = c then String.mk acc.reverse :: splitOnCharAux c xs []
      else splitOnCharAux c xs (x :: acc)

/-- Embedding of the JS String.prototype.split with a one-character
separator (so "".split yields [""], and a trailing separator yields a
trailing empty segment). -/
def splitOnChar (c : Char) (s : String) : List String :=
  splitOnCharAux c s.data []

/-- Embedding of JS Array.prototype.join for string elements. -/
def joinStr (sep : String) : List String → String
  | [] => ""
  | [x] => x
  | x :: y :: rest => x ++ sep ++ joinStr sep (y :: rest)

/-- Occurrence count of a character in a character list. -/
def countCharL (c : Char) : List Char → Nat
  | [] => 0
  | x :: xs => (if x = c then 1 else 0) + countCharL c xs

/-- Occurrence count of a character in a string. -/
def countChar (c : Char) (s : String) : Nat := countCharL c s.data

/-- Boolean prefix test on character lists. -/
def isPrefixChars : List Char → List Char → Bool
  | [], _ => true
  | _ :: _, [] => false
  | p :: ps, c :: cs => p == c && isPrefixChars ps cs

/-- Boolean contiguous-substring test on character lists. -/
def hasSubChars (pat : List Char) : List Char → Bool
  | [] => isPrefixChars pat []
  | c :: cs => isPrefixChars pat (c :: cs) || hasSubChars pat cs

/-- Embedding of JS String.prototype.includes. -/
def strIncludes (s pat : String) : Bool := hasSubChars pat.data s.data

/-- JS whitespace characters relevant to String.prototype.trim. -/
def isJsWhitespace (c : Char) : Bool :=
  c = ' ' || c = '\n' || c = '\t' || c = '\r' || c = Char.ofNat 11 || c = Char.ofNat 12

/-- Embedding of JS String.prototype.trim. -/
def trimStr (s : String) : String :=
  String.mk (((s.data.dropWhile isJsWhitespace).reverse.dropWhile isJsWhitespace).reverse)

/-- Adds a string to an ordered set kept as a list: first-seen order,
deduplicated (the Set used by extractHeaders). -/
def addUnique (l : List String) (s : String) : List String :=
  if s ∈ l then l else l ++ [s]

mutual
/-- Stringification of one array element inside JS Array.prototype.toString:
null (and undefined) elements render as the empty string, everything else
via the JS String() conversion. -/
def jsElemStr : JsonValue → String
  | .null => ""
  | .str s => s
  | .num n => toString n
  | .bool b => if b then "true" else "false"
  | .obj _ => "[object Object]"
  | .arr xs => jsToStringElems xs

/-- JS Array.prototype.toString: elements joined with a comma. -/
def jsToStringElems : List JsonValue → String
  | [] => ""
  | [v] => jsElemStr v
  | v :: w :: rest => jsElemStr v ++ "," ++ jsToStringElems (w :: rest)
end

/-- Embedding of the JS String() conversion / template-literal
stringification of a value. -/
def jsToString : JsonValue → String
  | .str s => s
  | .num n => toString n
  | .bool b => if b then "true" else "false"
  | .null => "null"
  | .obj _ => "[object Object]"
  | .arr xs => jsToStringElems xs

/-- One element of an array-valued issue path: validators use strings and
integer indices. -/
inductive PathSeg where
  | strSeg (s : String)
  | natSeg (n : Int)
deriving Repr

/-- A value found in the path field of a validation issue. Issues produced
inside parseWithSchema always carry an array path, but the safeParse branch
copies err.path straight from the external validator object, so a malformed
(non-array) path is representable. -/
inductive PathVal where
  | missing
  | arrv (l : List PathSeg)
  | strv (s : String)
  | numv (n : Int)
deriving Repr

/-- A validation issue: a path and a message. A missing message is none
(the JS field would be undefined). -/
structure Issue where
  path : PathVal
  message : Option String
deriving Repr

/-- Result shape of a safeParse-style capability: success flag, parsed
data, and (on failure) the issue list found at result.error.errors. -/
structure SafeParseRes where
  success : Bool
  data : JsonValue
  errors : List Issue

/-- Result shape of a validate-style capability: success flag, data, and
string error messages. -/
structure ValidateRes where
  success : Bool
  data : JsonValue
  errors : List String

/-- A value thrown by a parse-style capability: either an Error carrying
a message, or some non-Error value. -/
inductive JsThrown where
  | jsError (msg : String)
  | nonError

/-- A schema object, modelled by which of the three duck-typed
capabilities it exposes. The probing order of parseWithSchema (safeParse,
then parse, then validate) is what resolves an object exposing several. -/
structure Schema where
  safeParse : Option (JsonValue → SafeParseRes)
  parse : Option (JsonValue → Except JsThrown JsonValue)
  validate : Option (JsonValue → ValidateRes)

/-- Outcome of parseWithSchema: success true with data, or success false
with an issue list. -/
inductive ParseResult where
  | valid (data : JsonValue)
  | invalid (errors : List Issue)
deriving Repr

/-- Embedding of parseWithSchema. The absent / null schema is Option.none.
The no-capability fallback performs JSON.parse(JSON.stringify(data)),
which on the pure JSON values of this model is the identity and cannot
throw, so that branch returns the data unchanged. -/
def parseWithSchema (schema : Option Schema) (jsonData : JsonValue) : ParseResult :=
  match schema with
  | none => .valid jsonData
  | some sch =>
    match sch.safeParse with
    | some f =>
      let result := f jsonData
      if !result.success then
        .invalid (result.errors.map fun err => { path := err.path, message := err.message })
      else .valid result.data
    | none =>
      match sch.parse with
      | some f =>
        match f jsonData with
        | .ok data => .valid data
        | .error (.jsError msg) => .invalid [{ path := .arrv [], message := some msg }]
        | .error .nonError =>
            .invalid [{ path := .arrv [], message := some "An unknown error occurred" }]
      | none =>
        match sch.validate with
        | some f =>
          let validationResult := f jsonData
          if !validationResult.success then
            .invalid (validationResult.errors.map fun error =>
              { path := .arrv [], message := some error })
          else .valid validationResult.data
        | none => .valid jsonData

/-- Rendering of one path segment inside Array.prototype.join. -/
def segToString : PathSeg → String
  | .strSeg s => s
  | .natSeg n => toString n

/-- The path part of one formatted issue. The source evaluates
err.path && err.path.length > 0 ? err.path.join(".") : "unknown path":
a falsy path (missing, null, empty string, zero) or one without a
positive length property yields "unknown path"; a truthy non-array path
with a positive length property (a nonempty string) reaches .join and
throws a TypeError, modelled as the error side. -/
def pathRender : PathVal → Except String String
  | .missing => .ok "unknown path"
  | .arrv [] => .ok "unknown path"
  | .arrv l => .ok (joinStr "." (l.map segToString))
  | .strv s => if s = "" then .ok "unknown path"
               else .error "err.path.join is not a function"
  | .numv _ => .ok "unknown path"

/-- The message part of one formatted issue: err.message || fallback,
so a missing or empty message yields the fallback. -/
def msgRender : Option String → String
  | none => "No message provided"
  | some "" => "No message provided"
  | some m => m

/-- Formats the issues one by one, propagating the first crash. -/
def formatIssuesGo : List Issue → Except String (List String)
  | [] => .ok []
  | i :: rest =>
    match pathRender i.path with
    | .error e => .error e
    | .ok p =>
      match formatIssuesGo rest with
      | .error e => .error e
      | .ok tail =>
          .ok (("Validation error at \"" ++ p ++ "\": " ++ msgRender i.message) :: tail)

/-- Embedding of formatErrors: an empty issue list yields the single
fallback message, otherwise one message per issue (or a thrown TypeError
on a malformed path). -/
def formatErrors (errors : List Issue) : Except String (List String) :=
  if errors.length = 0 then .ok ["Unknown error occurred! try checking your JSON"]
  else formatIssuesGo errors

/-- True exactly on the JS null value. -/
def isNullJson : JsonValue → Bool
  | .null => true
  | _ => false

/-- Dotted-path key join: prefix ? prefix + "." + key : key
(the empty prefix is falsy). -/
def joinKey (pre k : String) : String :=
  if pre = "" then k else pre ++ "." ++ k

/-- Index headers contributed by iterating Object.keys of a string value:
one header per character index (characters are single-character strings,
never objects, so each index is a leaf). -/
def extractStrChars (pre : String) : List Char → Nat → List String → List String
  | [], _, acc => acc
  | _ :: rest, i, acc => extractStrChars pre rest (i + 1) (addUnique acc (joinKey pre (toString i)))

mutual
/-- The inner extract closure of extractHeaders: iterates Object.keys of
one value, recursing into plain (non-null, non-array) objects and adding
every other key as a leaf header. Null never reaches here: the wrapper
rejects top-level nulls and the recursion guard excludes null values. -/
def extractInto (v : JsonValue) (pre : String) (acc : List String) : List String :=
  match v with
  | .obj fs => extractFieldsGo fs pre acc
  | .arr xs => extractElemsGo xs 0 pre acc
  | .str s => extractStrChars pre s.data 0 acc
  | _ => acc

/-- Key iteration over the fields of an object. -/
def extractFieldsGo : List (String × JsonValue) → String → List String → List String
  | [], _, acc => acc
  | (k, v) :: rest, pre, acc =>
    extractFieldsGo rest pre
      (match v with
       | .obj fs => extractInto (.obj fs) (joinKey pre k) acc
       | _ => addUnique acc (joinKey pre k))

/-- Key iteration over the index keys of an array value: an array-valued
field is a leaf unless an element is itself a plain object, matching the
Object.keys walk of the source (arrays only reach extract as the
top-level item, never by recursion). -/
def extractElemsGo : List JsonValue → Nat → String → List String → List String
  | [], _, _, acc => acc
  | v :: rest, i, pre, acc =>
    extractElemsGo rest (i + 1) pre
      (match v with
       | .obj fs => extractInto (.obj fs) (joinKey pre (toString i)) acc
       | _ => addUnique acc (joinKey pre (toString i)))
end

/-- The header set accumulated over all items, in first-seen order. -/
def extractHeadersList (dataArray : List JsonValue) : List String :=
  dataArray.foldl (fun acc item => extractInto item "" acc) []

/-- Embedding of extractHeaders. Object.keys throws a TypeError on a null
item, which aborts the whole extraction. -/
def extractHeaders (dataArray : List JsonValue) : Except String (List String) :=
  if dataArray.any isNullJson then .error "Cannot convert undefined or null to object"
  else .ok (extractHeadersList dataArray)

/-- First-match field lookup (JS objects cannot carry duplicate keys, so
models in this development keep field names distinct). -/
def lookupField : List (String × JsonValue) → String → Option JsonValue
  | [], _ => none
  | (k, v) :: rest, key => if k = key then some v else lookupField rest key

/-- Digit-string to Nat. -/
def digitsToNat (l : List Char) : Nat :=
  l.foldl (fun a c => a * 10 + (c.toNat - 48)) 0

/-- A canonical JS array index: nonempty, all digits, and round-trips
through Nat (so "01" is not an index). -/
def parseArrayIndex (s : String) : Option Nat :=
  if s ≠ "" && s.data.all Char.isDigit && toString (digitsToNat s.data) = s then
    some (digitsToNat s.data)
  else none

/-- Own-property access on a truthy value (the null case never reaches
here from getValueFromPath because null is falsy). Arrays and strings
expose length and canonical indices; numbers and booleans have no own
properties. -/
def getProp (v : JsonValue) (key : String) : Option JsonValue :=
  match v with
  | .obj fs => lookupField fs key
  | .arr xs =>
      if key = "length" then some (.num xs.length)
      else match parseArrayIndex key with
           | some i => xs.get? i
           | none => none
  | .str s =>
      if key = "length" then some (.num s.length)
      else match parseArrayIndex key with
           | some i => (s.data.get? i).map fun c => .str (String.mk [c])
           | none => none
  | _ => none

/-- JS falsiness on the modelled values (NaN is outside the model). -/
def jsFalsy : JsonValue → Bool
  | .null => true
  | .bool b => !b
  | .num n => n = 0
  | .str s => s = ""
  | _ => false

/-- Embedding of getValueFromPath:
path.split(".").reduce((acc, part) => acc && acc[part], obj).
none stands for undefined; a falsy accumulator short-circuits and is
returned as is. -/
def getValueFromPath (obj : JsonValue) (path : String) : Option JsonValue :=
  (splitOnChar '.' path).foldl
    (fun acc part =>
      match acc with
      | none => none
      | some v => if jsFalsy v then some v else getProp v part)
    (some obj)

mutual
/-- Embedding of formatComplexValue as observed through a JS template
literal: the source returns raw scalars unchanged from its else branch
and they are stringified by the caller (null renders as "null"). -/
def formatComplexValue : JsonValue → String
  | .arr xs => fcvJoin xs
  | .obj fs => "\x7b" ++ fcvEntries fs ++ "\x7d"
  | .null => "null"
  | v => jsToString v

/-- Array branch of formatComplexValue: elements joined with ", ".
Array.prototype.join renders a raw null element as the empty string. -/
def fcvJoin : List JsonValue → String
  | [] => ""
  | [v] => fcvJoinElem v
  | v :: w :: rest => fcvJoinElem v ++ ", " ++ fcvJoin (w :: rest)

/-- One joined element: the formatComplexValue result under join
stringification (raw null becomes empty). -/
def fcvJoinElem : JsonValue → String
  | .arr xs => fcvJoin xs
  | .obj fs => "\x7b" ++ fcvEntries fs ++ "\x7d"
  | .null => ""
  | v => jsToString v

/-- Object branch of formatComplexValue: key-value entries joined with a
bare comma, keys unquoted. -/
def fcvEntries : List (String × JsonValue) → String
  | [] => ""
  | [(k, v)] => k ++ ": " ++ formatComplexValue v
  | (k, v) :: rest => k ++ ": " ++ formatComplexValue v ++ "," ++ fcvEntries rest
end

/-- The content of one tabular cell before quoting: undefined renders as
the literal undefined, array and object (and null, whose JS typeof is
object) values go through formatComplexValue, every other value through
template-literal stringification. No escaping is applied anywhere. -/
def cellMiddle (item : JsonValue) (header : String) : String :=
  match getValueFromPath item header with
  | none => "undefined"
  | some v =>
    match v with
    | .arr xs => formatComplexValue (.arr xs)
    | .obj fs => formatComplexValue (.obj fs)
    | .null => formatComplexValue .null
    | w => jsToString w

/-- Embedding of the cell rendering inside jsonToCsv: both branches wrap
the cell content in double quotes. -/
def renderCell (item : JsonValue) (header : String) : String :=
  match getValueFromPath item header with
  | none => "\"" ++ "undefined" ++ "\""
  | some v =>
    match v with
    | .arr xs => "\"" ++ formatComplexValue (.arr xs) ++ "\""
    | .obj fs => "\"" ++ formatComplexValue (.obj fs) ++ "\""
    | .null => "\"" ++ formatComplexValue .null ++ "\""
    | w => "\"" ++ jsToString w ++ "\""

/-- One data line of the delimited output: quoted cells joined with
commas, then a newline. -/
def csvRow (headers : List String) (item : JsonValue) : String :=
  joinStr "," (headers.map (renderCell item)) ++ "\n"

/-- The full delimited text: header line (headers joined verbatim with
commas, unquoted), then one line per record. -/
def buildCsv (dataArray : List JsonValue) (headers : List String) : String :=
  dataArray.foldl (fun acc item => acc ++ csvRow headers item) (joinStr "," headers ++ "\n")

/-- A serializer payload: plain text, a binary buffer (held as the byte
string it decodes to), or the raw structured data (the json passthrough). -/
inductive FileData where
  | str (s : String)
  | bytes (s : String)
  | json (v : JsonValue)
deriving Repr

/-- The object every serializer returns on success:
always constructed with success set to true. -/
structure SerOk where
  success : Bool
  fileData : FileData
deriving Repr

/-- The shared validation-failure path of every serializer: format the
issues (which can itself throw on a malformed path) and throw a labelled
conversion error. -/
def conversionError (label : String) (errs : List Issue) : Except String SerOk :=
  match formatErrors errs with
  | .error e => .error e
  | .ok msgs => .error (label ++ " Conversion Error: " ++ joinStr ", " msgs)

/-- The shared array normalization of jsonToCsv and jsonToTxt: arrays
pass through, plain objects are wrapped in a one-element array, anything
else (scalars, null) throws. -/
def toDataArray : JsonValue → Except String (List JsonValue)
  | .arr xs => .ok xs
  | .obj fs => .ok [.obj fs]
  | _ => .error "JSON data is neither an array nor an object"

/-- Embedding of jsonToCsv. -/
def jsonToCsv (jsonData : JsonValue) (schema : Option Schema) : Except String SerOk :=
  match parseWithSchema schema jsonData with
  | .invalid errs => conversionError "CSV" errs
  | .valid data =>
    match toDataArray data with
    | .error e => .error e
    | .ok dataArray =>
      if dataArray.length = 0 then .error "JSON data array is empty"
      else
        match extractHeaders dataArray with
        | .error e => .error e
        | .ok headers => .ok { success := true, fileData := .str (buildCsv dataArray headers) }

/-- Global replacement of the double-quote character by a backslash and a
double quote, on character lists. -/
def escapeDqL : List Char → List Char
  | [] => []
  | c :: rest => if c = '"' then '\\' :: '"' :: escapeDqL rest else c :: escapeDqL rest

/-- Embedding of value.replace of every double quote by an escaped one. -/
def escapeDq (s : String) : String := String.mk (escapeDqL s.data)

/-- Embedding of isMultilineString. -/
def isMultilineString (s : String) : Bool := strIncludes s "\n"

/-- Embedding of formatPrimitive. A multi-line string renders as a
literal block first; otherwise a string containing a colon, a double
quote, a single quote (\x27) or a newline is wrapped in double quotes
with internal double quotes escaped; numbers, booleans and null render
canonically; the fallback calls toString. -/
def formatPrimitive : JsonValue → String
  | .str s =>
    if isMultilineString s then "|\n  " ++ joinStr "\n  " (splitOnChar '\n' s)
    else if strIncludes s ":" || strIncludes s "\"" || strIncludes s "\x27"
            || strIncludes s "\n" then
      "\"" ++ escapeDq s ++ "\""
    else s
  | .num n => toString n
  | .bool b => if b then "true" else "false"
  | .null => "null"
  | v => jsToString v

/-- Two spaces of indentation per nesting level. -/
def indentStr (lvl : Nat) : String := String.mk (List.replicate (lvl * 2) ' ')

/-- True on values whose JS typeof is object and that are not null
(plain objects and arrays), the recursion guard of stringify. -/
def isObjLike : JsonValue → Bool
  | .obj _ => true
  | .arr _ => true
  | _ => false

mutual
/-- Embedding of the yaml stringify writer. -/
def stringify (obj : JsonValue) (indentLevel : Nat) : String :=
  match obj with
  | .null => "null\n"
  | .arr xs => stringifyArr xs indentLevel
  | .obj fs => stringifyObj fs indentLevel
  | v => indentStr indentLevel ++ formatPrimitive v ++ "\n"

/-- Sequence items of stringify: nested structures are rendered one
level deeper and trimmed onto the dash line. -/
def stringifyArr (xs : List JsonValue) (lvl : Nat) : String :=
  match xs with
  | [] => ""
  | item :: rest =>
    (if isObjLike item then
        indentStr lvl ++ "- " ++ trimStr (stringify item (lvl + 1)) ++ "\n"
     else indentStr lvl ++ "- " ++ formatPrimitive item ++ "\n")
    ++ stringifyArr rest lvl

/-- Record fields of stringify: nested structures start a block under
key colon, scalars render inline. -/
def stringifyObj (fs : List (String × JsonValue)) (lvl : Nat) : String :=
  match fs with
  | [] => ""
  | (k, v) :: rest =>
    (if isObjLike v then indentStr lvl ++ k ++ ":\n" ++ stringify v (lvl + 1)
     else indentStr lvl ++ k ++ ": " ++ formatPrimitive v ++ "\n")
    ++ stringifyObj rest lvl
end

/-- Embedding of jsonToYaml. -/
def jsonToYaml (jsonData : JsonValue) (schema : Option Schema) : Except String SerOk :=
  match parseWithSchema schema jsonData with
  | .invalid errs => conversionError "YAML" errs
  | .valid data => .ok { success := true, fileData := .str (stringify data 0) }

/-- Entity escaping of one character for the markup serializer. The
source chains five global replaces; on the original characters that is
the same as this single-pass character map. -/
def escXmlChar (c : Char) : List Char :=
  if c = '&' then "&amp;".data
  else if c = '<' then "&lt;".data
  else if c = '>' then "&gt;".data
  else if c = '"' then "&quot;".data
  else if c = Char.ofNat 39 then "&apos;".data
  else [c]

/-- Embedding of escapeXml: non-strings go through the JS String()
conversion unescaped, strings are entity-escaped. -/
def escapeXml : JsonValue → String
  | .str s => String.mk (s.data.foldr (fun c acc => escXmlChar c ++ acc) [])
  | v => jsToString v

mutual
/-- Embedding of the inner buildXml recursion. -/
def buildXml : JsonValue → String
  | .obj fs => buildXmlFields fs
  | .arr xs => buildXmlItems xs
  | v => escapeXml v

/-- Fields of an object: an array-valued key repeats its element once
per item, a plain object nests, anything else (null included) becomes
escaped text content. -/
def buildXmlFields : List (String × JsonValue) → String
  | [] => ""
  | (k, v) :: rest =>
    (match v with
     | .arr xs => buildXmlArrField k xs
     | .obj fs => "<" ++ k ++ ">" ++ buildXmlFields fs ++ "</" ++ k ++ ">"
     | w => "<" ++ k ++ ">" ++ escapeXml w ++ "</" ++ k ++ ">")
    ++ buildXmlFields rest

/-- One element tag per item of an array-valued field. -/
def buildXmlArrField (k : String) : List JsonValue → String
  | [] => ""
  | item :: rest => "<" ++ k ++ ">" ++ buildXml item ++ "</" ++ k ++ ">" ++ buildXmlArrField k rest

/-- A top-level (or nested) bare array: item tags with escaped content
(an object item degrades to its String() form). -/
def buildXmlItems : List JsonValue → String
  | [] => ""
  | item :: rest => "<item>" ++ escapeXml item ++ "</item>" ++ buildXmlItems rest
end

/-- Embedding of XmlBuilder: wraps the built content in the root tag
when the root name is truthy (nonempty), then trims. -/
def XmlBuilder (obj : JsonValue) (rootElement : String) : String :=
  trimStr (if rootElement ≠ "" then
             "<" ++ rootElement ++ ">" ++ buildXml obj ++ "</" ++ rootElement ++ ">"
           else buildXml obj)

/-- Embedding of jsonToXml. -/
def jsonToXml (jsonData : JsonValue) (schema : Option Schema) (rootName : String) :
    Except String SerOk :=
  match parseWithSchema schema jsonData with
  | .invalid errs => conversionError "XML" errs
  | .valid data => .ok { success := true, fileData := .str (XmlBuilder data rootName) }

/-- One hexadecimal digit (lowercase, as emitted by JSON.stringify). -/
def hexDigit (n : Nat) : Char :=
  if n < 10 then Char.ofNat (48 + n) else Char.ofNat (87 + n)

/-- JSON string escaping of one character. -/
def jsonEscChar (c : Char) : List Char :=
  if c = '"' then ['\\', '"']
  else if c = '\\' then ['\\', '\\']
  else if c = '\n' then ['\\', 'n']
  else if c = '\r' then ['\\', 'r']
  else if c = '\t' then ['\\', 't']
  else if c = Char.ofNat 8 then ['\\', 'b']
  else if c = Char.ofNat 12 then ['\\', 'f']
  else if c.toNat < 32 then ['\\', 'u', '0', '0', hexDigit (c.toNat / 16), hexDigit (c.toNat % 16)]
  else [c]

/-- A JSON string literal with its delimiting quotes. -/
def jsonQuote (s : String) : String :=
  "\"" ++ String.mk (s.data.foldr (fun c acc => jsonEscChar c ++ acc) []) ++ "\""

mutual
/-- Embedding of JSON.stringify(value, null, 2) on the modelled value
space (no undefined, functions or NaN); ind is the indentation of the
enclosing line. -/
def jsonStringifyVal (ind : String) : JsonValue → String
  | .null => "null"
  | .str s => jsonQuote s
  | .num n => toString n
  | .bool b => if b then "true" else "false"
  | .arr [] => "[]"
  | .arr (x :: xs) => "[\n" ++ jsonItems (ind ++ "  ") (x :: xs) ++ "\n" ++ ind ++ "]"
  | .obj [] => "\x7b\x7d"
  | .obj (f :: fs) => "\x7b\n" ++ jsonFields (ind ++ "  ") (f :: fs) ++ "\n" ++ ind ++ "\x7d"

/-- Array items, one per line. -/
def jsonItems (ind : String) : List JsonValue → String
  | [] => ""
  | [v] => ind ++ jsonStringifyVal ind v
  | v :: w :: rest => ind ++ jsonStringifyVal ind v ++ ",\n" ++ jsonItems ind (w :: rest)

/-- Object fields, one per line. -/
def jsonFields (ind : String) : List (String × JsonValue) → String
  | [] => ""
  | [(k, v)] => ind ++ jsonQuote k ++ ": " ++ jsonStringifyVal ind v
  | (k, v) :: f :: rest =>
      ind ++ jsonQuote k ++ ": " ++ jsonStringifyVal ind v ++ ",\n" ++ jsonFields ind (f :: rest)
end

/-- Embedding of jsonToTxt: the same shape checks as jsonToCsv, then a
two-space-indented JSON dump of the normalized array. -/
def jsonToTxt (jsonData : JsonValue) (schema : Option Schema) : Except String SerOk :=
  match parseWithSchema schema jsonData with
  | .invalid errs => conversionError "TXT" errs
  | .valid data =>
    match toDataArray data with
    | .error e => .error e
    | .ok dataArray =>
      if dataArray.length = 0 then .error "JSON data array is empty"
      else .ok { success := true, fileData := .str (jsonStringifyVal "" (.arr dataArray)) }

/-- Embedding of jsonToJaon (the json passthrough): the payload is the
validated data itself, not a serialized string. -/
def jsonToJaon (jsonData : JsonValue) (schema : Option Schema) : Except String SerOk :=
  match parseWithSchema schema jsonData with
  | .invalid errs => conversionError "JAON" errs
  | .valid data => .ok { success := true, fileData := .json data }

/-- One worksheet cell: the v field may hold undefined (none) when a row
lacks the header key. -/
structure SheetCell where
  v : Option JsonValue
deriving Repr

/-- A worksheet: cell references mapped to cells, in insertion order. -/
def Sheet := List (String × SheetCell)

/-- A workbook: named sheets plus the sheet-name list. -/
structure Workbook where
  Sheets : List (String × Sheet)
  SheetNames : List String

/-- Embedding of Object.keys applied to the possibly-absent first
element of the data array: undefined and null throw, objects yield their
field names, arrays and strings their index keys, other scalars nothing. -/
def objectKeys : Option JsonValue → Except String (List String)
  | none => .error "Cannot convert undefined or null to object"
  | some .null => .error "Cannot convert undefined or null to object"
  | some (.obj fs) => .ok (fs.map Prod.fst)
  | some (.arr xs) => .ok ((List.range xs.length).map toString)
  | some (.str s) => .ok ((List.range s.length).map toString)
  | some _ => .ok []

/-- A cell reference: the column letter from char code 65 + index, then
the row number. -/
def cellRef (col : Nat) (row : Nat) : String :=
  String.mk [Char.ofNat (65 + col)] ++ toString row

/-- Own-property read used for row[header] in the sheet builder; null
rows throw when at least one header is read off them. -/
def sheetRowCells (headers : List String) (row : JsonValue) (rowIndex : Nat) :
    Except String (List (String × SheetCell)) :=
  match headers with
  | [] => .ok []
  | _ :: _ =>
    match row with
    | .null => .error "Cannot read properties of null"
    | r => .ok (headers.enum.map fun ic => (cellRef ic.fst (rowIndex + 2), ⟨getProp r ic.snd⟩))

/-- Data rows of the sheet, in row order. -/
def sheetDataRows (headers : List String) : List JsonValue → Nat →
    Except String (List (String × SheetCell))
  | [], _ => .ok []
  | row :: rest, i =>
    match sheetRowCells headers row i with
    | .error e => .error e
    | .ok cells =>
      match sheetDataRows headers rest (i + 1) with
      | .error e => .error e
      | .ok tail => .ok (cells ++ tail)

/-- Embedding of utils.json_to_sheet: header cells on row 1 from the
keys of the first element, then one row per element. -/
def json_to_sheet (jsonData : List JsonValue) : Except String Sheet :=
  match objectKeys jsonData.head? with
  | .error e => .error e
  | .ok headers =>
    let headerCells := headers.enum.map fun ih => (cellRef ih.fst 1, SheetCell.mk (some (.str ih.snd)))
    match sheetDataRows headers jsonData 0 with
    | .error e => .error e
    | .ok dataCells => .ok (headerCells ++ dataCells)

/-- Embedding of utils.book_new. -/
def book_new : Workbook := { Sheets := [], SheetNames := [] }

/-- Embedding of utils.book_append_sheet, functionally. -/
def book_append_sheet (workbook : Workbook) (sheet : Sheet) (sheetName : String) : Workbook :=
  { Sheets := workbook.Sheets ++ [(sheetName, sheet)],
    SheetNames := workbook.SheetNames ++ [sheetName] }

/-- The base64 alphabet. -/
def b64Alphabet : List Char :=
  "ABCDEFGHIJKLMNOPQRSTUVWXYZabcdefghijklmnopqrstuvwxyz0123456789+/".data

/-- One base64 output character. -/
def b64Char (n : Nat) : Char := (b64Alphabet.get? n).getD 'A'

/-- Base64 encoding of a byte list, three bytes at a time. -/
def b64Go : List Nat → List Char
  | [] => []
  | [a] => [b64Char (a / 4), b64Char (a % 4 * 16), '=', '=']
  | [a, b] => [b64Char (a / 4), b64Char (a % 4 * 16 + b / 16), b64Char (b % 16 * 4), '=']
  | a :: b :: c :: rest =>
      b64Char (a / 4) :: b64Char (a % 4 * 16 + b / 16)
        :: b64Char (b % 16 * 4 + c / 64) :: b64Char (c % 64) :: b64Go rest

/-- Base64 encoding of an ascii byte string (Buffer.toString base64). -/
def base64Encode (s : String) : String :=
  String.mk (b64Go (s.data.map Char.toNat))

/-- The output type requested from write. -/
inductive WriteType where
  | buffer
  | binary
  | stringT

/-- The options object of write. -/
structure WriteOptions where
  type : WriteType
  bookType : String

/-- Embedding of generateXlsxBuffer: a constant mock buffer, the
workbook argument is ignored. -/
def generateXlsxBuffer (_workbook : Workbook) : String := "This is a mock xlsx buffer"

/-- Embedding of write: only the xlsx book type is supported; buffer
output returns the bytes, binary the latin1 decoding (identical on this
ascii buffer), string the base64 encoding. -/
def write (workbook : Workbook) (options : WriteOptions) : Except String FileData :=
  if options.bookType ≠ "xlsx" then .error "Currently, only xlsx format is supported."
  else
    let buffer := generateXlsxBuffer workbook
    match options.type with
    | .buffer => .ok (.bytes buffer)
    | .binary => .ok (.str buffer)
    | .stringT => .ok (.str (base64Encode buffer))

/-- The array normalization of jsonToXlsx: arrays pass through, any
other value (objects and scalars alike) is wrapped in a one-element
array, with no shape error. -/
def xlsxNormalize : JsonValue → List JsonValue
  | .arr xs => xs
  | d => [d]

/-- Embedding of jsonToXlsx. -/
def jsonToXlsx (jsonData : JsonValue) (schema : Option Schema) (_rootName : String) :
    Except String SerOk :=
  match parseWithSchema schema jsonData with
  | .invalid errs => conversionError "XLSX" errs
  | .valid data =>
    let dataArray := xlsxNormalize data
    match json_to_sheet dataArray with
    | .error e => .error e
    | .ok worksheet =>
      let workbook := book_append_sheet book_new worksheet "Sheet1"
      match write workbook { type := .buffer, bookType := "xlsx" } with
      | .error e => .error e
      | .ok xlsxData => .ok { success := true, fileData := xlsxData }

/-- Embedding of byFileType: the switch statement as a decision chain;
any unrecognized format string reaches the default branch and degrades
to jsonToTxt. -/
def byFileType (jsonData : JsonValue) (schema : Option Schema) (fileType : String)
    (fileName : String) : Except String SerOk :=
  if fileType = "csv" then jsonToCsv jsonData schema
  else if fileType = "yaml" then jsonToYaml jsonData schema
  else if fileType = "xml" then jsonToXml jsonData schema fileName
  else if fileType = "xlsx" then jsonToXlsx jsonData schema fileName
  else if fileType = "txt" then jsonToTxt jsonData schema
  else if fileType = "json" then jsonToJaon jsonData schema
  else jsonToTxt jsonData schema

/-- Embedding of convertJson. The sinkWrite argument stands for the
outcome of the persistence block (directory creation, unique path
resolution and fs.writeFileSync): the File Sink is an external
collaborator. An exception thrown anywhere inside the try block,
including by the sink, is caught, logged and rethrown, which the model
renders as the error passing through. -/
def convertJson (jsonData : JsonValue) (schema : Option Schema) (saveToFile : Bool)
    (fileName : String) (fileType : String) (sinkWrite : Except String Unit) :
    Except String SerOk :=
  match byFileType jsonData schema fileType fileName with
  | .error e => .error e
  | .ok result =>
    if saveToFile && result.success then
      match sinkWrite with
      | .error e => .error e
      | .ok _ => .ok result
    else .ok result

/-- Concatenation of the rendered pieces of a list, used to reason about
the foldl string building of buildCsv. -/
def concatMapStr (f : α → String) : List α → String
  | [] => ""
  | x :: rest => f x ++ concatMapStr f rest

/-- Holds when a serializer outcome is either a thrown error or a
success object whose success field is true. -/
def okSuccess (r : Except String SerOk) : Prop :=
  match r with
  | .ok v => v.success = true
  | .error _ => True

/-- Holds when an xlsx outcome is either a thrown error or a success
object carrying the constant mock buffer. -/
def xlsxPayloadConst (r : Except String SerOk) : Prop :=
  match r with
  | .ok v => v.fileData = FileData.bytes "This is a mock xlsx buffer"
  | .error _ => True

/-- True on the path values on which the path rendering of formatErrors
throws: truthy non-arrays with a positive length property, that is,
nonempty strings. -/
def pathCrashes : PathVal → Bool
  | .strv s => s ≠ ""
  | _ => false

/-- Modelled from the spec: the path part of a formatted issue, a
nonempty array path joined with dots, everything else the literal
unknown path. -/
def specPathPart : PathVal → String
  | .arrv (p :: ps) => joinStr "." ((p :: ps).map segToString)
  | _ => "unknown path"

/-- Modelled from the spec: the one message per issue that formatErrors
is documented to produce. -/
def specIssueMessage (i : Issue) : String :=
  "Validation error at \"" ++ specPathPart i.path ++ "\": " ++ msgRender i.message

/-- The end-to-end scenario schema: only a validate capability, which
reports failure with the single string error bad. -/
def validateBadSchema : Schema :=
  { safeParse := none, parse := none,
    validate := some fun _ => { success := false, data := JsonValue.null, errors := ["bad"] } }

theorem countCharL_append (c : Char) (l1 l2 : List Char) :
    countCharL c (l1 ++ l2) = countCharL c l1 + countCharL c l2 := by
  induction l1 with
  | nil => simp [countCharL]
  | cons x xs ih =>
    show (if x = c then 1 else 0) + countCharL c (xs ++ l2)
        = (if x = c then 1 else 0) + countCharL c xs + countCharL c l2
    rw [ih]
    omega

theorem countChar_append (c : Char) (a b : String) :
    countChar c (a ++ b) = countChar c a + countChar c b := by
  unfold countChar
  rw [String.data_append, countCharL_append]

theorem countChar_joinStr_zero (c : Char) (sep : String) (hsep : countChar c sep = 0)
    (l : List String) (h : ∀ x ∈ l, countChar c x = 0) :
    countChar c (joinStr sep l) = 0 := by
  induction l with
  | nil => rfl
  | cons x xs ih =>
    cases xs with
    | nil => exact h x (by simp)
    | cons y rest =>
      show countChar c (x ++ sep ++ joinStr sep (y :: rest)) = 0
      rw [countChar_append, countChar_append, h x (by simp), hsep,
        ih (fun z hz => h z (by simp [hz]))]

theorem countChar_joinStr_sep (c : Char) (sep : String) (hsep : countChar c sep = 1)
    (l : List String) (hne : l ≠ []) (h : ∀ x ∈ l, countChar c x = 0) :
    countChar c (joinStr sep l) + 1 = l.length := by
  induction l with
  | nil => exact absurd rfl hne
  | cons x xs ih =>
    cases xs with
    | nil => show countChar c x + 1 = 1; rw [h x (by simp)]
    | cons y rest =>
      show countChar c (x ++ sep ++ joinStr sep (y :: rest)) + 1 = (y :: rest).length + 1
      rw [countChar_append, countChar_append, h x (by simp), hsep,
        ← ih (by simp) (fun z hz => h z (by simp [hz]))]
      omega

theorem countChar_concatMapStr_ones (c : Char) (f : α → String) (l : List α)
    (h : ∀ x ∈ l, countChar c (f x) = 1) :
    countChar c (concatMapStr f l) = l.length := by
  induction l with
  | nil => rfl
  | cons x xs ih =>
    show countChar c (f x ++ concatMapStr f xs) = xs.length + 1
    rw [countChar_append, h x (by simp), ih (fun z hz => h z (by simp [hz]))]
    omega

theorem foldl_append_concat (f : α → String) (l : List α) :
    ∀ init : String, l.foldl (fun acc x => acc ++ f x) init = init ++ concatMapStr f l := by
  induction l with
  | nil => intro init; show init = init ++ ""; simp
  | cons x xs ih =>
    intro init
    show (x :: xs).foldl (fun acc x => acc ++ f x) init = init ++ (f x ++ concatMapStr f xs)
    rw [List.foldl_cons, ih (init ++ f x), String.append_assoc]

theorem buildCsv_eq (dataArray : List JsonValue) (headers : List String) :
    buildCsv dataArray headers
      = (joinStr "," headers ++ "\n") ++ concatMapStr (csvRow headers) dataArray := by
  unfold buildCsv
  exact foldl_append_concat (csvRow headers) dataArray (joinStr "," headers ++ "\n")

theorem conversionError_okSuccess (label : String) (errs : List Issue) :
    okSuccess (conversionError label errs) := by
  unfold conversionError
  split <;> trivial

theorem jsonToCsv_okSuccess (d : JsonValue) (s : Option Schema) :
    okSuccess (jsonToCsv d s) := by
  unfold jsonToCsv
  split
  · exact conversionError_okSuccess _ _
  · split
    · trivial
    · split
      · trivial
      · split <;> trivial

theorem jsonToYaml_okSuccess (d : JsonValue) (s : Option Schema) :
    okSuccess (jsonToYaml d s) := by
  unfold jsonToYaml
  split
  · exact conversionError_okSuccess _ _
  · trivial

theorem jsonToXml_okSuccess (d : JsonValue) (s : Option Schema) (n : String) :
    okSuccess (jsonToXml d s n) := by
  unfold jsonToXml
  split
  · exact conversionError_okSuccess _ _
  · trivial

theorem jsonToXlsx_okSuccess (d : JsonValue) (s : Option Schema) (n : String) :
    okSuccess (jsonToXlsx d s n) := by
  unfold jsonToXlsx
  split
  · exact conversionError_okSuccess _ _
  · dsimp only
    split
    · trivial
    · split <;> trivial

theorem jsonToTxt_okSuccess (d : JsonValue) (s : Option Schema) :
    okSuccess (jsonToTxt d s) := by
  unfold jsonToTxt
  split
  · exact conversionError_okSuccess _ _
  · split
    · trivial
    · split <;> trivial

theorem jsonToJaon_okSuccess (d : JsonValue) (s : Option Schema) :
    okSuccess (jsonToJaon d s) := by
  unfold jsonToJaon
  split
  · exact conversionError_okSuccess _ _
  · trivial

theorem byFileType_okSuccess (d : JsonValue) (s : Option Schema) (ft n : String) :
    okSuccess (byFileType d s ft n) := by
  unfold byFileType
  split
  · exact jsonToCsv_okSuccess d s
  · split
    · exact jsonToYaml_okSuccess d s
    · split
      · exact jsonToXml_okSuccess d s n
      · split
        · exact jsonToXlsx_okSuccess d s n
        · split
          · exact jsonToTxt_okSuccess d s
          · split
            · exact jsonToJaon_okSuccess d s
            · exact jsonToTxt_okSuccess d s

theorem write_buffer_const (wb : Workbook) :
    write wb { type := WriteType.buffer, bookType := "xlsx" }
      = .ok (FileData.bytes "This is a mock xlsx buffer") := rfl

/-- C2: an absent or null schema makes parseWithSchema return a valid
outcome carrying the input data unchanged, whatever the shape of the
input (no validation is performed). -/
theorem C2_no_schema_passthrough (data : JsonValue) :
    parseWithSchema none data = ParseResult.valid data := rfl

/-- C9: for every request, convertJson either throws (the error side of
the embedding) or returns a result whose success field is true, carrying
fileData; an Err-shaped success-false value is never returned, because
every validation or shape failure in every serializer is thrown. -/
theorem C9_convertJson_never_returns_failure (jsonData : JsonValue) (schema : Option Schema)
    (saveToFile : Bool) (fileName fileType : String) (sinkWrite : Except String Unit) :
    okSuccess (convertJson jsonData schema saveToFile fileName fileType sinkWrite) := by
  unfold convertJson
  cases h : byFileType jsonData schema fileType fileName with
  | error e => trivial
  | ok result =>
    have hs : result.success = true := by
      have hb := byFileType_okSuccess jsonData schema fileType fileName
      rw [h] at hb
      exact hb
    cases saveToFile with
    | false => exact hs
    | true =>
      dsimp only
      rw [hs]
      cases sinkWrite with
      | error e => trivial
      | ok u => exact hs

/-- C10: whenever the xlsx serializer accepts its input, the returned
payload is the constant mock buffer bytes, independent of the data, the
schema and the file name: the built worksheet never influences it. -/
theorem C10_xlsx_constant_payload (jsonData : JsonValue) (schema : Option Schema)
    (rootName : String) :
    xlsxPayloadConst (jsonToXlsx jsonData schema rootName) := by
  unfold jsonToXlsx
  split
  · unfold conversionError
    split <;> trivial
  · dsimp only
    split
    · trivial
    · split
      · trivial
      · rename_i ws hws xd heq
        rw [write_buffer_const] at heq
        cases heq
        rfl

/-- C8: every format string outside the six recognized ones reaches the
default branch of byFileType and is serialized by jsonToTxt, giving the
same result as an explicit txt request; no unsupported-format error is
raised. -/
theorem C8_unknown_format_degrades_to_txt (fileType : String)
    (h : fileType ∉ (["csv", "yaml", "xml", "xlsx", "txt", "json"] : List String))
    (jsonData : JsonValue) (schema : Option Schema) (fileName : String) :
    byFileType jsonData schema fileType fileName = jsonToTxt jsonData schema
    ∧ byFileType jsonData schema fileType fileName
        = byFileType jsonData schema "txt" fileName := by
  simp only [List.mem_cons, List.not_mem_nil, not_or] at h
  obtain ⟨h1, h2, h3, h4, h5, h6, -⟩ := h
  constructor
  · unfold byFileType
    rw [if_neg h1, if_neg h2, if_neg h3, if_neg h4, if_neg h5, if_neg h6]
  · unfold byFileType
    rw [if_neg h1, if_neg h2, if_neg h3, if_neg h4, if_neg h5, if_neg h6]
    rfl

theorem C8_witness :
    byFileType (JsonValue.obj [("a", JsonValue.num 1)]) none "docx" "data"
      = jsonToTxt (JsonValue.obj [("a", JsonValue.num 1)]) none
    ∧ byFileType (JsonValue.obj [("a", JsonValue.num 1)]) none "docx" "data"
      = byFileType (JsonValue.obj [("a", JsonValue.num 1)]) none "txt" "data" :=
  C8_unknown_format_degrades_to_txt "docx" (by decide)
    (JsonValue.obj [("a", JsonValue.num 1)]) none "data"

/-- C1 (amended): when the validated data is the empty sequence, the
delimited (csv) and pretty (txt) serializers throw the error JSON data
array is empty, whose message contains the word empty; the sheet (xlsx)
serializer also fails, but with the TypeError thrown by Object.keys on
the missing first element, whose message does not contain the word
empty. -/
theorem C1_empty_sequence_errors (schema : Option Schema) (jsonData : JsonValue)
    (rootName : String)
    (h : parseWithSchema schema jsonData = ParseResult.valid (JsonValue.arr [])) :
    jsonToCsv jsonData schema = .error "JSON data array is empty"
    ∧ strIncludes "JSON data array is empty" "empty" = true
    ∧ jsonToTxt jsonData schema = .error "JSON data array is empty"
    ∧ jsonToXlsx jsonData schema rootName = .error "Cannot convert undefined or null to object"
    ∧ strIncludes "Cannot convert undefined or null to object" "empty" = false := by
  refine ⟨?_, by decide, ?_, ?_, by decide⟩
  · unfold jsonToCsv
    rw [h]
    rfl
  · unfold jsonToTxt
    rw [h]
    rfl
  · unfold jsonToXlsx
    rw [h]
    rfl

theorem C1_witness :
    jsonToCsv (JsonValue.arr []) none = .error "JSON data array is empty"
    ∧ strIncludes "JSON data array is empty" "empty" = true
    ∧ jsonToTxt (JsonValue.arr []) none = .error "JSON data array is empty"
    ∧ jsonToXlsx (JsonValue.arr []) none "data"
        = .error "Cannot convert undefined or null to object"
    ∧ strIncludes "Cannot convert undefined or null to object" "empty" = false :=
  C1_empty_sequence_errors none (JsonValue.arr []) "data" rfl

theorem C1_counterexample_xlsx :
    jsonToXlsx (JsonValue.arr []) none "data"
      = .error "Cannot convert undefined or null to object"
    ∧ strIncludes "Cannot convert undefined or null to object" "empty" = false :=
  ⟨rfl, by decide⟩

/-- C3 (amended): when the conversion itself succeeds, convertJson
returns the conversion result unchanged if persistence is off or the
sink write succeeds; but when persist is true and the sink write throws,
the catch block rethrows, so convertJson propagates the sink error
instead of returning the successful conversion result. -/
theorem C3_persistence_outcome (jsonData : JsonValue) (schema : Option Schema)
    (fileName fileType : String) (sinkWrite : Except String Unit) (result : SerOk)
    (h : byFileType jsonData schema fileType fileName = .ok result) :
    convertJson jsonData schema false fileName fileType sinkWrite = .ok result
    ∧ (sinkWrite = .ok () →
        convertJson jsonData schema true fileName fileType sinkWrite = .ok result)
    ∧ (∀ e, sinkWrite = .error e →
        convertJson jsonData schema true fileName fileType sinkWrite = .error e) := by
  have hs : result.success = true := by
    have hb := byFileType_okSuccess jsonData schema fileType fileName
    rw [h] at hb
    exact hb
  refine ⟨?_, ?_, ?_⟩
  · unfold convertJson
    rw [h]
    rfl
  · intro hw
    unfold convertJson
    rw [h, hw]
    dsimp only
    rw [hs]
    rfl
  · intro e hw
    unfold convertJson
    rw [h, hw]
    dsimp only
    rw [hs]
    rfl

theorem C3_witness :
    convertJson (JsonValue.obj [("a", JsonValue.num 1)]) none false "data" "json" (.ok ())
      = .ok { success := true, fileData := FileData.json (JsonValue.obj [("a", JsonValue.num 1)]) }
    ∧ ((Except.ok () : Except String Unit) = .ok () →
        convertJson (JsonValue.obj [("a", JsonValue.num 1)]) none true "data" "json" (.ok ())
          = .ok { success := true,
                  fileData := FileData.json (JsonValue.obj [("a", JsonValue.num 1)]) })
    ∧ (∀ e, (Except.ok () : Except String Unit) = .error e →
        convertJson (JsonValue.obj [("a", JsonValue.num 1)]) none true "data" "json" (.ok ())
          = .error e) :=
  C3_persistence_outcome (JsonValue.obj [("a", JsonValue.num 1)]) none "data" "json" (.ok ())
    { success := true, fileData := FileData.json (JsonValue.obj [("a", JsonValue.num 1)]) } rfl

theorem C3_counterexample_sink_failure :
    byFileType (JsonValue.obj [("a", JsonValue.num 1)]) none "json" "data"
      = .ok { success := true, fileData := FileData.json (JsonValue.obj [("a", JsonValue.num 1)]) }
    ∧ convertJson (JsonValue.obj [("a", JsonValue.num 1)]) none true "data" "json"
        (.error "EACCES: permission denied")
      = .error "EACCES: permission denied"
    ∧ (Except.error "EACCES: permission denied"
        ≠ (Except.ok { success := true,
                       fileData := FileData.json (JsonValue.obj [("a", JsonValue.num 1)]) }
           : Except String SerOk)) := by
  refine ⟨rfl, rfl, ?_⟩
  intro hcontra
  exact Except.noConfusion hcontra

theorem renderCell_eq_quoted (item : JsonValue) (header : String) :
    renderCell item header = "\"" ++ cellMiddle item header ++ "\"" := by
  unfold renderCell cellMiddle
  cases getValueFromPath item header with
  | none => rfl
  | some v => cases v <;> rfl

theorem renderCell_quote_count (item : JsonValue) (header : String) :
    countChar '"' (renderCell item header) = countChar '"' (cellMiddle item header) + 2 := by
  rw [renderCell_eq_quoted, countChar_append, countChar_append]
  have h1 : countChar '"' "\"" = 1 := rfl
  rw [h1]
  omega

/-- C6: every data cell of the delimited output is the unescaped cell
content wrapped in double quotes whatever the type of the value (the
quote count rises by exactly the two delimiters, so no internal quote is
escaped), the header line embeds the headers verbatim and unquoted, and
the end-to-end scenario produces exactly the expected text. -/
theorem C6_cells_quoted_unescaped :
    convertJson (JsonValue.obj [("name", JsonValue.str "John Doe"), ("age", JsonValue.num 30),
        ("email", JsonValue.str "john.doe@example.com")]) none false "data" "csv" (.ok ())
      = .ok { success := true,
              fileData := .str "name,age,email\n\"John Doe\",\"30\",\"john.doe@example.com\"\n" }
    ∧ (∀ item header, renderCell item header = "\"" ++ cellMiddle item header ++ "\"")
    ∧ (∀ item header, countChar '"' (renderCell item header)
        = countChar '"' (cellMiddle item header) + 2)
    ∧ (∀ dataArray headers, buildCsv dataArray headers
        = (joinStr "," headers ++ "\n") ++ concatMapStr (csvRow headers) dataArray) :=
  ⟨rfl, renderCell_eq_quoted, renderCell_quote_count, fun dataArray headers =>
    buildCsv_eq dataArray headers⟩

/-- C7 (amended): a multi-line string renders as a literal block (a pipe
then each original line indented by two spaces) and is not quoted; a
single-line string containing a colon or a quote character (double or
single) is wrapped in double quotes with its internal double quotes
escaped (single quotes are left as they are). -/
theorem C7_serial_string_rendering (s : String) :
    (isMultilineString s = true →
      formatPrimitive (JsonValue.str s) = "|\n  " ++ joinStr "\n  " (splitOnChar '\n' s))
    ∧ (isMultilineString s = false →
      (strIncludes s ":" || strIncludes s "\"" || strIncludes s "\x27") = true →
      formatPrimitive (JsonValue.str s) = "\"" ++ escapeDq s ++ "\"") := by
  constructor
  · intro hm
    unfold formatPrimitive
    dsimp only
    rw [hm]
    rfl
  · intro hm hc
    unfold formatPrimitive
    dsimp only
    rw [hm, hc]
    rfl

theorem C7_witness :
    formatPrimitive (JsonValue.str "x:y") = "\"x:y\""
    ∧ formatPrimitive (JsonValue.str "line1\nline2") = "|\n  line1\n  line2" :=
  ⟨(C7_serial_string_rendering "x:y").2 (by decide) (by decide),
   (C7_serial_string_rendering "line1\nline2").1 (by decide)⟩

theorem C7_counterexample_multiline_not_quoted :
    formatPrimitive (JsonValue.str "a\nb") = "|\n  a\n  b"
    ∧ ("|\n  a\n  b").data.head? ≠ some '"' :=
  ⟨rfl, by decide⟩

theorem pathRender_ok_of_not_crashes (p : PathVal) (hp : pathCrashes p = false) :
    pathRender p = .ok (specPathPart p) := by
  cases p with
  | missing => rfl
  | arrv l => cases l with
    | nil => rfl
    | cons x xs => rfl
  | strv s =>
    rcases eq_or_ne s "" with hs | hs
    · subst hs
      rfl
    · simp [pathCrashes, hs] at hp
  | numv n => rfl

theorem formatIssuesGo_ok (errs : List Issue)
    (hp : ∀ i ∈ errs, pathCrashes i.path = false) :
    formatIssuesGo errs = .ok (errs.map specIssueMessage) := by
  induction errs with
  | nil => rfl
  | cons i rest ih =>
    show (match pathRender i.path with
      | Except.error e => (Except.error e : Except String (List String))
      | Except.ok p =>
        match formatIssuesGo rest with
        | Except.error e => Except.error e
        | Except.ok tail =>
            Except.ok (("Validation error at \"" ++ p ++ "\": " ++ msgRender i.message) :: tail))
      = Except.ok ((i :: rest).map specIssueMessage)
    rw [pathRender_ok_of_not_crashes i.path (hp i (by simp)),
      ih (fun z hz => hp z (by simp [hz]))]
    rfl

/-- C4 (amended): for every nonempty issue sequence in which no path is
a crashing value (a truthy non-array with a positive length property,
such as a nonempty string), formatErrors returns exactly one message per
issue of the form Validation error at "path": message, rendering a
missing, empty or length-less path as unknown path and a missing or
empty message as No message provided; an empty sequence yields the
single fallback message instead; and the validate-capability scenario
returning success false with errors bad produces exactly the single
message Validation error at "unknown path": bad and makes the delimited
serializer throw it. -/
theorem C4_formatErrors_amended (errs : List Issue) (hne : errs ≠ [])
    (hp : ∀ i ∈ errs, pathCrashes i.path = false) :
    formatErrors errs = .ok (errs.map specIssueMessage)
    ∧ (errs.map specIssueMessage).length = errs.length
    ∧ formatErrors [] = .ok ["Unknown error occurred! try checking your JSON"]
    ∧ parseWithSchema (some validateBadSchema) (JsonValue.obj [])
        = ParseResult.invalid [{ path := PathVal.arrv [], message := some "bad" }]
    ∧ formatErrors [{ path := PathVal.arrv [], message := some "bad" }]
        = .ok ["Validation error at \"unknown path\": bad"]
    ∧ jsonToCsv (JsonValue.obj []) (some validateBadSchema)
        = .error "CSV Conversion Error: Validation error at \"unknown path\": bad" := by
  refine ⟨?_, by simp, rfl, rfl, rfl, rfl⟩
  unfold formatErrors
  rw [if_neg (by simpa using hne)]
  exact formatIssuesGo_ok errs hp

theorem C4_witness :
    formatErrors [{ path := PathVal.missing, message := none }]
      = .ok ["Validation error at \"unknown path\": No message provided"]
    ∧ ([({ path := PathVal.missing, message := none } : Issue)].map specIssueMessage).length
        = [({ path := PathVal.missing, message := none } : Issue)].length
    ∧ formatErrors [] = .ok ["Unknown error occurred! try checking your JSON"]
    ∧ parseWithSchema (some validateBadSchema) (JsonValue.obj [])
        = ParseResult.invalid [{ path := PathVal.arrv [], message := some "bad" }]
    ∧ formatErrors [{ path := PathVal.arrv [], message := some "bad" }]
        = .ok ["Validation error at \"unknown path\": bad"]
    ∧ jsonToCsv (JsonValue.obj []) (some validateBadSchema)
        = .error "CSV Conversion Error: Validation error at \"unknown path\": bad" :=
  C4_formatErrors_amended [{ path := PathVal.missing, message := none }]
    (List.cons_ne_nil _ _) (by decide)

theorem C4_counterexample_string_path_crash :
    formatErrors [{ path := PathVal.strv "x", message := some "m" }]
      = .error "err.path.join is not a function" := rfl

theorem extractHeaders_objs (records : List (List (String × JsonValue))) :
    extractHeaders (records.map JsonValue.obj)
      = .ok (extractHeadersList (records.map JsonValue.obj)) := by
  have hnull : (records.map JsonValue.obj).any isNullJson = false := by
    simp [List.any_map, isNullJson, Function.comp]
  unfold extractHeaders
  rw [hnull]
  rfl

theorem jsonToCsv_objs (records : List (List (String × JsonValue))) (hne : records ≠ []) :
    jsonToCsv (JsonValue.arr (records.map JsonValue.obj)) none
      = .ok { success := true,
              fileData := .str (buildCsv (records.map JsonValue.obj)
                (extractHeadersList (records.map JsonValue.obj))) } := by
  have hlen : ¬((records.map JsonValue.obj).length = 0) := by
    simp only [List.length_map, List.length_eq_zero]
    exact hne
  unfold jsonToCsv
  dsimp only [parseWithSchema, toDataArray]
  rw [if_neg hlen, extractHeaders_objs]

/-- C5 (amended): for every nonempty record sequence contributing at
least one column, provided no header contains a comma or a newline and
no rendered cell contains a newline, the delimited output has exactly
len(records)+1 newline-terminated lines, and the comma-separated field
count of the header line equals the number of distinct dotted-path
headers collected across all records. -/
theorem C5_line_and_field_counts (records : List (List (String × JsonValue)))
    (hne : records ≠ [])
    (hdrne : extractHeadersList (records.map JsonValue.obj) ≠ [])
    (hH : ∀ h ∈ extractHeadersList (records.map JsonValue.obj),
        countChar ',' h = 0 ∧ countChar '\n' h = 0)
    (hC : ∀ r ∈ records, ∀ h ∈ extractHeadersList (records.map JsonValue.obj),
        countChar '\n' (renderCell (JsonValue.obj r) h) = 0) :
    jsonToCsv (JsonValue.arr (records.map JsonValue.obj)) none
      = .ok { success := true,
              fileData := .str (buildCsv (records.map JsonValue.obj)
                (extractHeadersList (records.map JsonValue.obj))) }
    ∧ countChar '\n' (buildCsv (records.map JsonValue.obj)
        (extractHeadersList (records.map JsonValue.obj))) = records.length + 1
    ∧ countChar ',' (joinStr "," (extractHeadersList (records.map JsonValue.obj))) + 1
      = (extractHeadersList (records.map JsonValue.obj)).length := by
  refine ⟨jsonToCsv_objs records hne, ?_, ?_⟩
  · rw [buildCsv_eq, countChar_append, countChar_append]
    have h1 : countChar '\n' (joinStr "," (extractHeadersList (records.map JsonValue.obj))) = 0 :=
      countChar_joinStr_zero '\n' "," rfl _ (fun x hx => (hH x hx).2)
    have h3 : countChar '\n' (concatMapStr
        (csvRow (extractHeadersList (records.map JsonValue.obj))) (records.map JsonValue.obj))
        = (records.map JsonValue.obj).length := by
      apply countChar_concatMapStr_ones
      intro item hitem
      obtain ⟨r, hr, hreq⟩ := List.mem_map.mp hitem
      subst hreq
      unfold csvRow
      rw [countChar_append]
      have hcells : countChar '\n' (joinStr ","
          ((extractHeadersList (records.map JsonValue.obj)).map (renderCell (JsonValue.obj r))))
          = 0 := by
        apply countChar_joinStr_zero '\n' "," rfl
        intro x hx
        obtain ⟨hh, hhmem, hgeq⟩ := List.mem_map.mp hx
        subst hgeq
        exact hC r hr hh hhmem
      rw [hcells]
      rfl
    have h2 : countChar '\n' "\n" = 1 := rfl
    rw [h1, h2, h3, List.length_map]
    omega
  · exact countChar_joinStr_sep ',' "," rfl _ hdrne (fun x hx => (hH x hx).1)

theorem C5_witness :
    jsonToCsv (JsonValue.arr [JsonValue.obj [("a", JsonValue.num 1)],
        JsonValue.obj [("b", JsonValue.str "x")]]) none
      = .ok { success := true,
              fileData := .str "a,b\n\"1\",\"undefined\"\n\"undefined\",\"x\"\n" }
    ∧ countChar '\n' "a,b\n\"1\",\"undefined\"\n\"undefined\",\"x\"\n" = 2 + 1
    ∧ countChar ',' "a,b" + 1 = 2 :=
  C5_line_and_field_counts [[("a", JsonValue.num 1)], [("b", JsonValue.str "x")]]
    (List.cons_ne_nil _ _) (by decide) (by decide) (by decide)

theorem C5_counterexample_embedded_newline :
    jsonToCsv (JsonValue.arr [JsonValue.obj [("a", JsonValue.str "x\ny")]]) none
      = .ok { success := true, fileData := .str "a\n\"x\ny\"\n" }
    ∧ countChar '\n' "a\n\"x\ny\"\n" = 3
    ∧ [JsonValue.obj [("a", JsonValue.str "x\ny")]].length + 1 = 2
    ∧ (3 : Nat) ≠ 2 :=
  ⟨rfl, by decide, by decide, by decide⟩
